import Mathlib

/-!
Verification of the document-portal core (`src/utils/document_ops.py`) against
its natural-language specification.

The embedding models the module shallowly:

* a LangChain `Document` is a pair of page content and metadata (a string
  association list, modelling the Python dict);
* the format-specific third-party loaders (PyPDFLoader, Docx2txtLoader, ...),
  the SQLAlchemy engine/inspector, the Gemini multimodal client and the
  BeautifulSoup text extraction are external collaborators; each is modelled
  as an abstract function that either returns its result or fails, collected
  in a `Loaders` record;
* Python exceptions are modelled with `Except`: a raising call returns
  `Except.error`, and `load_documents` wraps any such failure into the single
  domain error `DocError.documentPortalException`, mirroring the
  `DocumentPortalException` re-raise in the source;
* Python string truthiness (`a or b or "unknown"`, where both `None` and the
  empty string are falsy) is modelled by `pyOrStr`.

Marker-counting properties about `concat_for_analysis` and
`concat_for_comparison` are stated with an executable occurrence scanner
`occPos`/`countOccs` over the character list of the produced string.
-/

namespace DocPortal

/-- A LangChain `Document` unit: page content plus metadata, the metadata
dict modelled as a string-to-string association list. -/
structure Document where
  page_content : String
  metadata : List (String × String)
deriving DecidableEq

/-- Python truthiness-based `or` on an optional string: `None` and the empty
string are falsy and fall through to the right operand. -/
def pyOrStr (a : Option String) (b : String) : String :=
  match a with
  | none => b
  | some s => if s = "" then b else s

/-- Source label used by `concat_for_analysis` (line 119 of
`document_ops.py`): `d.metadata.get("source") or d.metadata.get("file_path")
or "unknown"`. -/
def sourceLabel (d : Document) : String :=
  pyOrStr (d.metadata.lookup "source") (pyOrStr (d.metadata.lookup "file_path") "unknown")

/-- One entry of the `parts` list built by `concat_for_analysis`:
`f"\n--- SOURCE: {src} ---\n{d.page_content}"`. -/
def partStr (d : Document) : String :=
  "\n--- SOURCE: " ++ sourceLabel d ++ " ---\n" ++ d.page_content

/-- `concat_for_analysis` (lines 116-121): joins the per-document parts with
a newline, preserving input order. -/
def concat_for_analysis (docs : List Document) : String :=
  String.intercalate "\n" (docs.map partStr)

/-- `concat_for_comparison` (lines 123-126): a two-part block built from the
single-set concatenations of the reference and actual document lists. -/
def concat_for_comparison (ref_docs act_docs : List Document) : String :=
  "<<REFERENCE_DOCUMENTS>>\n" ++ concat_for_analysis ref_docs ++
    "\n\n<<ACTUAL_DOCUMENTS>>\n" ++ concat_for_analysis act_docs

/-- One table of a relational database, as the SQLAlchemy collaborator
reports it to `load_sql_database`: the inspected table name, the column
names of `SELECT *`, and the textual representation `f"{row}"` of every
fetched row. -/
structure SQLTable where
  name : String
  columns : List String
  rows : List String
deriving DecidableEq

/-- A relational database as enumerated by the SQLAlchemy inspector: the
tables in enumeration order.  Engine creation, connection and row fetching
are external collaborators; this record is their combined answer. -/
structure SQLDatabase where
  tables : List SQLTable
deriving DecidableEq

/-- `load_sql_database` (lines 55-72), with the SQLAlchemy engine, inspector
and connection modelled by the `SQLDatabase` snapshot: one `Document` per
table, serialising the table name, the comma-joined column names and every
row's textual representation; no metadata is attached. -/
def load_sql_database (db : SQLDatabase) : List Document :=
  db.tables.map (fun t =>
    ⟨ "Table: " ++ t.name ++ "\nColumns: " ++ String.intercalate ", " t.columns ++
        "\nRows:\n" ++ String.join (t.rows.map (fun r => r ++ "\n")), [] ⟩)

/-- `describe_image_ai` (lines 26-53), with the Gemini client call modelled
by the text `response_content` it returns: the resulting `Document` carries
the model's description as content and no metadata. -/
def describe_image_ai (response_content : String) : Document :=
  ⟨response_content, []⟩

/-- `extract_html` (lines 16-23), with file reading and BeautifulSoup
extraction modelled by the visible text they yield: one `Document` tagged
with the source path. -/
def extract_html (file_path : String) (visible_text : String) : List Document :=
  [⟨visible_text, [("source", file_path)]⟩]

/-- A `pathlib.Path` argument of `load_documents`, recording `str(p)` and
the extension `p.suffix` that pathlib computes for it. -/
structure PyPath where
  str : String
  suffix : String
deriving DecidableEq

/-- The external loader collaborators dispatched by `load_documents`.  Each
field models one third-party call: it returns the produced documents (or
intermediate value) or fails like a raising Python call. -/
structure Loaders where
  pdf : String → Except String (List Document)
  docx : String → Except String (List Document)
  txt : String → Except String (List Document)
  ppt : String → Except String (List Document)
  md : String → Except String (List Document)
  csv : String → Except String (List Document)
  xlsx : String → Except String (List Document)
  sql : String → Except String SQLDatabase
  image : String → Except String String
  html : String → Except String String

/-- `SUPPORTED_EXTENSIONS` (line 14 of `document_ops.py`). -/
def SUPPORTED_EXTENSIONS : List String :=
  [".pdf", ".docx", ".txt", ".ppt", ".pptx", ".md", ".csv", ".xlsx", ".db",
   ".sqlite", ".jpg", ".jpeg", ".png", ".bmp", ".gif", ".tiff", ".webp",
   ".html", ".htm", ".xhtml"]

/-- Python `str.lower()` on an extension: lowercase every character. -/
def pyLower (s : String) : String :=
  ⟨s.data.map Char.toLower⟩

/-- The extension dispatch of one loop iteration of `load_documents`
(lines 78-109): lowercase the suffix, route to the matching loader, and
produce the documents this path contributes; an unmatched extension falls
through to the warning branch and contributes nothing. -/
def dispatch (L : Loaders) (p : PyPath) : Except String (List Document) :=
  let ext := pyLower p.suffix
  if ext = ".pdf" then L.pdf p.str
  else if ext = ".docx" then L.docx p.str
  else if ext = ".txt" then L.txt p.str
  else if ext ∈ [".ppt", ".pptx"] then L.ppt p.str
  else if ext = ".md" then L.md p.str
  else if ext = ".csv" then L.csv p.str
  else if ext = ".xlsx" then L.xlsx p.str
  else if ext ∈ [".db", ".sqlite"] then
    (L.sql ("sqlite:///" ++ p.str)).map load_sql_database
  else if ext ∈ [".jpg", ".jpeg", ".png", ".bmp", ".gif", ".tiff", ".webp"] then
    (L.image p.str).map (fun resp => [describe_image_ai resp])
  else if ext ∈ [".html", ".htm", ".xhtml"] then
    (L.html p.str).map (extract_html p.str)
  else Except.ok []

/-- The accumulation loop of `load_documents`: paths are processed in order,
each contributing its dispatched documents; the first raising loader aborts
the whole loop. -/
def loadLoop (L : Loaders) : List PyPath → Except String (List Document)
  | [] => Except.ok []
  | p :: ps =>
    match dispatch L p with
    | Except.error e => Except.error e
    | Except.ok ds =>
      match loadLoop L ps with
      | Except.error e => Except.error e
      | Except.ok rest => Except.ok (ds ++ rest)

/-- The domain exception raised by `load_documents`: a
`DocumentPortalException` wrapping the message and the underlying cause. -/
inductive DocError where
  | documentPortalException : String → String → DocError
deriving DecidableEq

/-- `load_documents` (lines 74-114): run the loop over all paths inside one
`try`; any escaping exception is wrapped into a single
`DocumentPortalException`, so the caller receives either every produced
document or only the wrapped error. -/
def load_documents (L : Loaders) (paths : List PyPath) : Except DocError (List Document) :=
  match loadLoop L paths with
  | Except.ok docs => Except.ok docs
  | Except.error e => Except.error (DocError.documentPortalException "Error loading documents" e)

/-- The state of the underlying binary stream of a FastAPI `UploadFile`:
its name, full content and current read position. -/
structure UploadFileState where
  filename : String
  content : List Nat
  pos : Nat
deriving DecidableEq

/-- `file.seek(p)` on the underlying stream. -/
def fileSeek (f : UploadFileState) (p : Nat) : UploadFileState :=
  ⟨f.filename, f.content, p⟩

/-- `file.read()` on the underlying stream: returns everything from the
current position and leaves the position at the end. -/
def fileRead (f : UploadFileState) : List Nat × UploadFileState :=
  (f.content.drop f.pos, ⟨f.filename, f.content, f.content.length⟩)

/-- `FastAPIFileAdapter.getbuffer` (lines 134-136): seek the upload stream
back to the start, then read it to the end. -/
def FastAPIFileAdapter_getbuffer (f : UploadFileState) : List Nat × UploadFileState :=
  fileRead (fileSeek f 0)

/-- `FastAPIFileAdapter.name` (line 133). -/
def FastAPIFileAdapter_name (f : UploadFileState) : String :=
  f.filename

/-- A `DocHandler` as probed by `read_pdf_via_handler`: each optional field
is present exactly when `hasattr` finds the corresponding method. -/
structure DocHandler where
  read_pdf : Option (String → String)
  read_ : Option (String → String)

/-- `read_pdf_via_handler` (lines 138-143): call `read_pdf` when present,
otherwise `read_`, otherwise raise the missing-capability error. -/
def read_pdf_via_handler (handler : DocHandler) (path : String) : Except String String :=
  match handler.read_pdf with
  | some f => Except.ok (f path)
  | none =>
    match handler.read_ with
    | some f => Except.ok (f path)
    | none => Except.error "DocHandler has neither read_pdf nor read_ method."

/-- Modelled from the spec: the per-session store behind the `/chat/index`
endpoint of the web layer (`api.main`, not part of `src/`).  Ingestion under
a session identifier merges the uploaded files into that session's entry,
creating the entry on first upload; the exact merge-vs-replace policy is an
external collaborator decision and only the session bookkeeping is
modelled. -/
def ingestFiles : List (String × List String) → String → List String → List (String × List String)
  | [], sid, files => [(sid, files)]
  | (s, fs) :: rest, sid, files =>
    if s = sid then (s, fs ++ files) :: rest
    else (s, fs) :: ingestFiles rest sid files

/-- The response body of `/chat/index`: the session identifier and the
retriever parameter `k`. -/
structure ChatIndexResponse where
  session_id : String
  k : Nat
deriving DecidableEq

/-- Modelled from the spec: the `/chat/index` endpoint (`api.main`, not part
of `src/`) ingests the uploaded files under the caller-supplied
`session_id` and responds with that `session_id` together with `k = 5`, as
asserted by `test_chat_index` and `test_file_reindex`. -/
def chat_index (store : List (String × List String)) (session_id : String)
    (files : List String) : List (String × List String) × ChatIndexResponse :=
  (ingestFiles store session_id files, ⟨session_id, 5⟩)

/-- Positions (in increasing order) at which the pattern `pat` occurs as a
contiguous substring of `s`, scanning character by character. -/
def occPos (pat : List Char) : List Char → List Nat
  | [] => []
  | c :: s => (if pat.isPrefixOf (c :: s) then [0] else []) ++ (occPos pat s).map (fun n => n + 1)

/-- Number of occurrences of `pat` as a contiguous substring of `s`. -/
def countOccs (pat s : List Char) : Nat :=
  (occPos pat s).length

/-- Number of occurrences of the pattern string inside a string. -/
def countStr (pat s : String) : Nat :=
  countOccs pat.data s.data

/-- Decidable check that `pat` and `x` disagree at some position below both
lengths; such a disagreement rules out `pat` being a prefix of any
extension of `x`. -/
def hasMismatch (pat x : List Char) : Bool :=
  (List.range (min pat.length x.length)).any (fun j => pat.getD j ' ' != x.getD j ' ')

/-- Character-level view of `concat_for_analysis`: the first part followed
by the remaining parts, each preceded by the joining newline. -/
def analysisData : List Document → List Char
  | [] => []
  | d :: ds => (partStr d).data ++ (ds.map (fun e => '\n' :: (partStr e).data)).flatten

/-- Predicted positions of the `--- SOURCE:` marker occurrences in
`concat_for_analysis`: each part places its marker one character (the
leading newline) after the part starts. -/
def markerPositions : List Document → List Nat
  | [] => []
  | [_] => [1]
  | d :: e :: ds => 1 :: (markerPositions (e :: ds)).map (fun n => n + ((partStr d).data.length + 1))

/-- Loader collaborators that always succeed with no documents, used to
instantiate universally quantified statements at a concrete input. -/
def trivLoaders : Loaders :=
  ⟨fun _ => Except.ok [], fun _ => Except.ok [], fun _ => Except.ok [],
   fun _ => Except.ok [], fun _ => Except.ok [], fun _ => Except.ok [],
   fun _ => Except.ok [], fun _ => Except.ok ⟨[]⟩, fun _ => Except.ok "",
   fun _ => Except.ok ""⟩

/-- Loader collaborators whose text loader raises, used to instantiate
failure statements at a concrete input. -/
def failTxtLoaders : Loaders :=
  ⟨fun _ => Except.ok [], fun _ => Except.ok [], fun _ => Except.error "boom",
   fun _ => Except.ok [], fun _ => Except.ok [], fun _ => Except.ok [],
   fun _ => Except.ok [], fun _ => Except.ok ⟨[]⟩, fun _ => Except.ok "",
   fun _ => Except.ok ""⟩

/-- C5: for every `Document` unit reaching aggregation, including units with
empty metadata or empty-string source entries, the label used in the
`--- SOURCE: <label> ---` header is non-empty: it is a metadata-derived
value or the literal fallback, which is the non-empty string `unknown`. -/
theorem sourceLabel_nonempty : ∀ d : Document,
    sourceLabel d ≠ "" ∧
    (sourceLabel d = "unknown" ∨ d.metadata.lookup "source" = some (sourceLabel d) ∨
      d.metadata.lookup "file_path" = some (sourceLabel d)) := by
  intro d
  cases hs : d.metadata.lookup "source" with
  | none =>
    cases hf : d.metadata.lookup "file_path" with
    | none =>
      have hval : sourceLabel d = "unknown" := by simp [sourceLabel, pyOrStr, hs, hf]
      rw [hval]
      exact ⟨by decide, Or.inl rfl⟩
    | some f =>
      by_cases hfe : f = ""
      · have hval : sourceLabel d = "unknown" := by simp [sourceLabel, pyOrStr, hs, hf, hfe]
        rw [hval]
        exact ⟨by decide, Or.inl rfl⟩
      · have hval : sourceLabel d = f := by simp [sourceLabel, pyOrStr, hs, hf, hfe]
        rw [hval]
        exact ⟨hfe, Or.inr (Or.inr rfl)⟩
  | some s =>
    by_cases hse : s = ""
    · subst hse
      cases hf : d.metadata.lookup "file_path" with
      | none =>
        have hval : sourceLabel d = "unknown" := by simp [sourceLabel, pyOrStr, hs, hf]
        rw [hval]
        exact ⟨by decide, Or.inl rfl⟩
      | some f =>
        by_cases hfe : f = ""
        · have hval : sourceLabel d = "unknown" := by simp [sourceLabel, pyOrStr, hs, hf, hfe]
          rw [hval]
          exact ⟨by decide, Or.inl rfl⟩
        · have hval : sourceLabel d = f := by simp [sourceLabel, pyOrStr, hs, hf, hfe]
          rw [hval]
          exact ⟨hfe, Or.inr (Or.inr rfl)⟩
    · have hval : sourceLabel d = s := by simp [sourceLabel, pyOrStr, hs, hse]
      rw [hval]
      exact ⟨hse, Or.inr (Or.inl rfl)⟩

/-- C6: `load_sql_database` yields exactly one `Document` per enumerated
table, and the content of the i-th document serialises the i-th table: it
begins with `Table: ` and the table name, then the line of column names,
then the textual representation of every row. -/
theorem load_sql_database_one_doc_per_table : ∀ db : SQLDatabase,
    (load_sql_database db).length = db.tables.length ∧
    ∀ i, i < db.tables.length →
      ((load_sql_database db).getD i ⟨"", []⟩).page_content =
        "Table: " ++ (db.tables.getD i ⟨"", [], []⟩).name ++ "\nColumns: " ++
          String.intercalate ", " (db.tables.getD i ⟨"", [], []⟩).columns ++ "\nRows:\n" ++
          String.join ((db.tables.getD i ⟨"", [], []⟩).rows.map (fun r => r ++ "\n")) := by
  intro db
  constructor
  · simp [load_sql_database]
  · intro i hi
    have hget : db.tables[i]? = some db.tables[i] := List.getElem?_eq_getElem hi
    simp [load_sql_database, List.getD_eq_getElem?_getD, List.getElem?_map, hget]

/-- Closed instance of C6 at a one-table database with one row. -/
theorem load_sql_database_one_doc_per_table_witness :
    ((load_sql_database ⟨[⟨"users", ["id", "name"], ["(1, Alice)"]⟩]⟩).length =
        (SQLDatabase.mk [⟨"users", ["id", "name"], ["(1, Alice)"]⟩]).tables.length) ∧
    ((load_sql_database ⟨[⟨"users", ["id", "name"], ["(1, Alice)"]⟩]⟩).getD 0 ⟨"", []⟩).page_content =
      "Table: users\nColumns: id, name\nRows:\n(1, Alice)\n" := by
  refine ⟨(load_sql_database_one_doc_per_table ⟨[⟨"users", ["id", "name"], ["(1, Alice)"]⟩]⟩).1, ?_⟩
  have h := (load_sql_database_one_doc_per_table ⟨[⟨"users", ["id", "name"], ["(1, Alice)"]⟩]⟩).2 0 (by decide)
  rw [h]
  decide

/-- C7: `read_pdf_via_handler` raises the missing-capability error exactly
when the handler has neither `read_pdf` nor `read_`; with `read_pdf`
present it returns that method's result, and with only `read_` present it
returns that method's result. -/
theorem read_pdf_via_handler_capability : ∀ (h : DocHandler) (path : String),
    (h.read_pdf = none → h.read_ = none →
      read_pdf_via_handler h path =
        Except.error "DocHandler has neither read_pdf nor read_ method.") ∧
    (∀ f, h.read_pdf = some f → read_pdf_via_handler h path = Except.ok (f path)) ∧
    (∀ f, h.read_pdf = none → h.read_ = some f →
      read_pdf_via_handler h path = Except.ok (f path)) := by
  intro h path
  refine ⟨?_, ?_, ?_⟩
  · intro h1 h2
    simp [read_pdf_via_handler, h1, h2]
  · intro f h1
    simp [read_pdf_via_handler, h1]
  · intro f h1 h2
    simp [read_pdf_via_handler, h1, h2]

/-- Closed instance of C7: the error case and both success cases at
concrete handlers. -/
theorem read_pdf_via_handler_capability_witness :
    read_pdf_via_handler ⟨none, none⟩ "doc.pdf" =
      Except.error "DocHandler has neither read_pdf nor read_ method." ∧
    read_pdf_via_handler ⟨some (fun s => s), some (fun _ => "other")⟩ "doc.pdf" =
      Except.ok "doc.pdf" ∧
    read_pdf_via_handler ⟨none, some (fun s => s)⟩ "doc.pdf" = Except.ok "doc.pdf" :=
  ⟨(read_pdf_via_handler_capability ⟨none, none⟩ "doc.pdf").1 rfl rfl,
   (read_pdf_via_handler_capability ⟨some (fun s => s), some (fun _ => "other")⟩ "doc.pdf").2.1
     (fun s => s) rfl,
   (read_pdf_via_handler_capability ⟨none, some (fun s => s)⟩ "doc.pdf").2.2
     (fun s => s) rfl rfl⟩

/-- C8: ingesting under a session identifier always responds with exactly
that identifier, so re-ingesting under an existing `session_id` returns the
same `session_id` as the first ingestion. -/
theorem chat_index_session_id_stable : ∀ (store : List (String × List String))
    (sid : String) (files1 files2 : List String),
    (chat_index store sid files1).2.session_id = sid ∧
    (chat_index (chat_index store sid files1).1 sid files2).2.session_id =
      (chat_index store sid files1).2.session_id := by
  intro store sid files1 files2
  exact ⟨rfl, rfl⟩

/-- C10: `getbuffer` seeks to position 0 before reading, so it returns the
full content whatever the current stream position, and a second call
returns the same bytes as the first. -/
theorem getbuffer_idempotent : ∀ f : UploadFileState,
    (FastAPIFileAdapter_getbuffer f).1 = f.content ∧
    (FastAPIFileAdapter_getbuffer ((FastAPIFileAdapter_getbuffer f).2)).1 =
      (FastAPIFileAdapter_getbuffer f).1 := by
  intro f
  exact ⟨rfl, rfl⟩

/-- C9: the source label follows Python truthiness precedence: a non-empty
`source` value wins; an empty or absent `source` falls through to
`file_path`; an empty or absent `file_path` falls through to the literal
`unknown`; and the metadata-free documents built by `load_sql_database` and
`describe_image_ai` are always labeled `unknown`. -/
theorem sourceLabel_precedence :
    (∀ (d : Document) (s : String),
      d.metadata.lookup "source" = some s → s ≠ "" → sourceLabel d = s) ∧
    (∀ (d : Document) (f : String),
      (d.metadata.lookup "source" = none ∨ d.metadata.lookup "source" = some "") →
      d.metadata.lookup "file_path" = some f → f ≠ "" → sourceLabel d = f) ∧
    (∀ d : Document,
      (d.metadata.lookup "source" = none ∨ d.metadata.lookup "source" = some "") →
      (d.metadata.lookup "file_path" = none ∨ d.metadata.lookup "file_path" = some "") →
      sourceLabel d = "unknown") ∧
    (∀ (db : SQLDatabase) (d : Document), d ∈ load_sql_database db → sourceLabel d = "unknown") ∧
    (∀ resp : String, sourceLabel (describe_image_ai resp) = "unknown") := by
  refine ⟨?_, ?_, ?_, ?_, ?_⟩
  · intro d s hs hne
    simp [sourceLabel, pyOrStr, hs, hne]
  · intro d f hs hf hne
    cases hs with
    | inl h => simp [sourceLabel, pyOrStr, h, hf, hne]
    | inr h => simp [sourceLabel, pyOrStr, h, hf, hne]
  · intro d hs hf
    cases hs with
    | inl h =>
      cases hf with
      | inl h' => simp [sourceLabel, pyOrStr, h, h']
      | inr h' => simp [sourceLabel, pyOrStr, h, h']
    | inr h =>
      cases hf with
      | inl h' => simp [sourceLabel, pyOrStr, h, h']
      | inr h' => simp [sourceLabel, pyOrStr, h, h']
  · intro db d hd
    obtain ⟨t, _, rfl⟩ := List.mem_map.mp hd
    rfl
  · intro resp
    rfl

/-- Closed instance of C9 covering every precedence branch. -/
theorem sourceLabel_precedence_witness :
    sourceLabel ⟨"c", [("source", "a.pdf")]⟩ = "a.pdf" ∧
    sourceLabel ⟨"c", [("source", ""), ("file_path", "b.txt")]⟩ = "b.txt" ∧
    sourceLabel ⟨"c", [("source", ""), ("file_path", "")]⟩ = "unknown" ∧
    sourceLabel ((load_sql_database ⟨[⟨"users", ["id"], ["(1,)"]⟩]⟩).getD 0 ⟨"", []⟩) =
      "unknown" ∧
    sourceLabel (describe_image_ai "a cat on a mat") = "unknown" :=
  ⟨sourceLabel_precedence.1 ⟨"c", [("source", "a.pdf")]⟩ "a.pdf" (by decide) (by decide),
   sourceLabel_precedence.2.1 ⟨"c", [("source", ""), ("file_path", "b.txt")]⟩ "b.txt"
     (Or.inr (by decide)) (by decide) (by decide),
   sourceLabel_precedence.2.2.1 ⟨"c", [("source", ""), ("file_path", "")]⟩
     (Or.inr (by decide)) (Or.inr (by decide)),
   sourceLabel_precedence.2.2.2.1 ⟨[⟨"users", ["id"], ["(1,)"]⟩]⟩ _ (by decide),
   sourceLabel_precedence.2.2.2.2 "a cat on a mat"⟩

/-- Unfolding equation for one iteration of the loader loop. -/
theorem loadLoop_cons (L : Loaders) (q : PyPath) (ps : List PyPath) :
    loadLoop L (q :: ps) =
      match dispatch L q with
      | Except.error e => Except.error e
      | Except.ok ds =>
        match loadLoop L ps with
        | Except.error e => Except.error e
        | Except.ok rest => Except.ok (ds ++ rest) := rfl

/-- Skipping helper: a path whose dispatch contributes no documents leaves
the loader loop's outcome unchanged. -/
theorem loadLoop_skip (L : Loaders) (p : PyPath) (hp : dispatch L p = Except.ok []) :
    ∀ pre post, loadLoop L (pre ++ p :: post) = loadLoop L (pre ++ post) := by
  intro pre post
  induction pre with
  | nil =>
    show loadLoop L (p :: post) = loadLoop L post
    rw [loadLoop_cons, hp]
    cases h : loadLoop L post <;> simp
  | cons q qs ih =>
    show loadLoop L (q :: (qs ++ p :: post)) = loadLoop L (q :: (qs ++ post))
    rw [loadLoop_cons L q (qs ++ p :: post), loadLoop_cons L q (qs ++ post), ih]

/-- C1: a path whose lowercased extension is unsupported contributes no
`Document` and raises nothing: `load_documents` behaves on the whole batch
exactly as if the path were absent. -/
theorem load_documents_skips_unsupported : ∀ (L : Loaders) (p : PyPath),
    pyLower p.suffix ∉ SUPPORTED_EXTENSIONS → ∀ pre post : List PyPath,
    dispatch L p = Except.ok [] ∧
    load_documents L (pre ++ p :: post) = load_documents L (pre ++ post) := by
  intro L p h pre post
  have hEq : ∀ s : String, s ∈ SUPPORTED_EXTENSIONS → ¬(pyLower p.suffix = s) :=
    fun s hs he => h (he ▸ hs)
  have hMem : ∀ l : List String, (∀ x ∈ l, x ∈ SUPPORTED_EXTENSIONS) →
      ¬(pyLower p.suffix ∈ l) := fun l hl hc => h (hl _ hc)
  have hdisp : dispatch L p = Except.ok [] := by
    unfold dispatch
    rw [if_neg (hEq _ (by decide)), if_neg (hEq _ (by decide)), if_neg (hEq _ (by decide)),
      if_neg (hMem _ (by decide)), if_neg (hEq _ (by decide)), if_neg (hEq _ (by decide)),
      if_neg (hEq _ (by decide)), if_neg (hMem _ (by decide)), if_neg (hMem _ (by decide)),
      if_neg (hMem _ (by decide))]
  refine ⟨hdisp, ?_⟩
  unfold load_documents
  rw [loadLoop_skip L p hdisp pre post]

/-- Closed instance of C1: an unsupported `.xyz` path between two supported
paths is skipped and loading continues. -/
theorem load_documents_skips_unsupported_witness :
    (pyLower (PyPath.mk "notes.xyz" ".xyz").suffix ∉ SUPPORTED_EXTENSIONS) ∧
    dispatch trivLoaders ⟨"notes.xyz", ".xyz"⟩ = Except.ok [] ∧
    load_documents trivLoaders ([⟨"a.txt", ".txt"⟩] ++ ⟨"notes.xyz", ".xyz"⟩ :: [⟨"b.md", ".md"⟩]) =
      load_documents trivLoaders ([⟨"a.txt", ".txt"⟩] ++ [⟨"b.md", ".md"⟩]) := by
  refine ⟨by decide, ?_⟩
  exact load_documents_skips_unsupported trivLoaders ⟨"notes.xyz", ".xyz"⟩ (by decide)
    [⟨"a.txt", ".txt"⟩] [⟨"b.md", ".md"⟩]

/-- Failure helper: once every earlier dispatch succeeded, a raising
dispatch aborts the loader loop with exactly its error. -/
theorem loadLoop_failure (L : Loaders) (p : PyPath) (e : String)
    (hp : dispatch L p = Except.error e) :
    ∀ pre, (∀ q ∈ pre, ∃ ds, dispatch L q = Except.ok ds) → ∀ post,
    loadLoop L (pre ++ p :: post) = Except.error e := by
  intro pre
  induction pre with
  | nil =>
    intro _ post
    show loadLoop L (p :: post) = Except.error e
    rw [loadLoop_cons, hp]
  | cons q qs ih =>
    intro hq post
    obtain ⟨ds, hds⟩ := hq q (List.mem_cons_self q qs)
    show loadLoop L (q :: (qs ++ p :: post)) = Except.error e
    rw [loadLoop_cons, hds, ih (fun r hr => hq r (List.mem_cons_of_mem q hr)) post]

/-- C2: when a reached per-path loader raises, `load_documents` raises a
single wrapped `DocumentPortalException` carrying that cause; the caller
receives no partial document list. -/
theorem load_documents_atomic_failure : ∀ (L : Loaders) (pre : List PyPath) (p : PyPath)
    (post : List PyPath) (e : String),
    (∀ q ∈ pre, ∃ ds, dispatch L q = Except.ok ds) →
    dispatch L p = Except.error e →
    load_documents L (pre ++ p :: post) =
      Except.error (DocError.documentPortalException "Error loading documents" e) := by
  intro L pre p post e hpre hp
  unfold load_documents
  rw [loadLoop_failure L p e hp pre hpre post]

/-- Closed instance of C2: a raising text loader in the middle of a batch
yields only the wrapped domain error. -/
theorem load_documents_atomic_failure_witness :
    (∀ q ∈ ([⟨"a.pdf", ".pdf"⟩] : List PyPath), ∃ ds, dispatch failTxtLoaders q = Except.ok ds) ∧
    dispatch failTxtLoaders ⟨"b.txt", ".txt"⟩ = Except.error "boom" ∧
    load_documents failTxtLoaders ([⟨"a.pdf", ".pdf"⟩] ++ ⟨"b.txt", ".txt"⟩ :: [⟨"c.md", ".md"⟩]) =
      Except.error (DocError.documentPortalException "Error loading documents" "boom") := by
  refine ⟨?_, rfl, ?_⟩
  · intro q hq
    rw [List.mem_singleton] at hq
    subst hq
    exact ⟨[], rfl⟩
  · exact load_documents_atomic_failure failTxtLoaders [⟨"a.pdf", ".pdf"⟩] ⟨"b.txt", ".txt"⟩
      [⟨"c.md", ".md"⟩] "boom"
      (by intro q hq; rw [List.mem_singleton] at hq; subst hq; exact ⟨[], rfl⟩)
      rfl

/-- Unfolding equation of the occurrence scanner on a cons cell. -/
theorem occPos_cons (pat : List Char) (c : Char) (s : List Char) :
    occPos pat (c :: s) =
      (if pat.isPrefixOf (c :: s) then [0] else []) ++ (occPos pat s).map (fun n => n + 1) := rfl

/-- A non-empty pattern is not a prefix of the empty list. -/
theorem not_isPrefixOf_nil (pat : List Char) (h : pat ≠ []) :
    pat.isPrefixOf ([] : List Char) = false := by
  cases pat with
  | nil => exact absurd rfl h
  | cons c s => rfl

/-- A pattern longer than the scanned list never occurs in it. -/
theorem occPos_short (pat : List Char) : ∀ s : List Char, s.length < pat.length →
    occPos pat s = [] := by
  intro s
  induction s with
  | nil => intro _; rfl
  | cons c t ih =>
    intro hlen
    have hpre : pat.isPrefixOf (c :: t) = false := by
      cases hp : pat.isPrefixOf (c :: t) with
      | false => rfl
      | true =>
        have hle := (List.isPrefixOf_iff_prefix.mp hp).length_le
        simp only [List.length_cons] at hle hlen
        omega
    have ht : occPos pat t = [] := ih (by simp only [List.length_cons] at hlen; omega)
    simp [occPos_cons, hpre, ht]

/-- Corresponding positions of a prefix and its extension agree. -/
theorem prefix_getD_eq (pat z : List Char) (hp : pat <+: z) :
    ∀ j, j < pat.length → pat.getD j ' ' = z.getD j ' ' := by
  obtain ⟨t, rfl⟩ := hp
  intro j hj
  rw [List.getD_eq_getElem?_getD, List.getD_eq_getElem?_getD, List.getElem?_append, if_pos hj]

/-- Positions below the left part's length read from the left part. -/
theorem getD_append_left (x y : List Char) (j : Nat) (hj : j < x.length) :
    (x ++ y).getD j ' ' = x.getD j ' ' := by
  rw [List.getD_eq_getElem?_getD, List.getD_eq_getElem?_getD, List.getElem?_append, if_pos hj]

/-- A mismatch between the pattern and `x` below both lengths rules out the
pattern being a prefix of any extension of `x`. -/
theorem not_prefixOf_append_of_hasMismatch (pat x : List Char) (h : hasMismatch pat x = true)
    (y : List Char) : pat.isPrefixOf (x ++ y) = false := by
  cases hp : pat.isPrefixOf (x ++ y) with
  | false => rfl
  | true =>
    exfalso
    have hpre : pat <+: x ++ y := List.isPrefixOf_iff_prefix.mp hp
    obtain ⟨j, hj, hne⟩ := List.any_eq_true.mp h
    rw [List.mem_range] at hj
    have hjp : j < pat.length := lt_of_lt_of_le hj (min_le_left _ _)
    have hjx : j < x.length := lt_of_lt_of_le hj (min_le_right _ _)
    rw [bne_iff_ne] at hne
    exact hne ((prefix_getD_eq pat (x ++ y) hpre j hjp).trans (getD_append_left x y j hjx))

/-- A prefix of `x ++ y` is a prefix of `x` or extends `x` by a prefix of
`y`. -/
theorem prefix_of_append_cases {pat x y : List Char} (h : pat <+: x ++ y) :
    pat <+: x ∨ ∃ w, pat = x ++ w ∧ w <+: y := by
  obtain ⟨t, ht⟩ := h
  rcases List.append_eq_append_iff.mp ht with ⟨a, ha1, _⟩ | ⟨c, hc1, hc2⟩
  · exact Or.inl ⟨a, ha1.symm⟩
  · exact Or.inr ⟨c, hc1, ⟨t, hc2.symm⟩⟩

/-- For a newline-free pattern, being a prefix across a newline boundary is
the same as being a prefix of the left part. -/
theorem isPrefixOf_append_newline (pat : List Char) (_hne : pat ≠ []) (hnl : '\n' ∉ pat) :
    ∀ x y : List Char, pat.isPrefixOf (x ++ '\n' :: y) = pat.isPrefixOf x := by
  intro x y
  cases hR : pat.isPrefixOf x with
  | true =>
    exact List.isPrefixOf_iff_prefix.mpr
      ((List.isPrefixOf_iff_prefix.mp hR).trans (List.prefix_append x _))
  | false =>
    cases hL : pat.isPrefixOf (x ++ '\n' :: y) with
    | false => rfl
    | true =>
      exfalso
      rcases prefix_of_append_cases (List.isPrefixOf_iff_prefix.mp hL) with hx | ⟨w, hw, hwy⟩
      · have hcontra := List.isPrefixOf_iff_prefix.mpr hx
        rw [hR] at hcontra
        exact Bool.noConfusion hcontra
      · cases w with
        | nil =>
          rw [List.append_nil] at hw
          subst hw
          have hcontra := List.isPrefixOf_iff_prefix.mpr (List.prefix_refl pat)
          rw [hR] at hcontra
          exact Bool.noConfusion hcontra
        | cons b w' =>
          have hb : b = '\n' := (List.cons_prefix_cons.mp hwy).1
          apply hnl
          rw [hw, hb]
          exact List.mem_append.mpr (Or.inr (List.mem_cons_self _ _))

/-- Occurrences of a newline-free pattern split at an explicit newline. -/
theorem occPos_break (pat : List Char) (hne : pat ≠ []) (hnl : '\n' ∉ pat) :
    ∀ x y : List Char, occPos pat (x ++ '\n' :: y) =
      occPos pat x ++ (occPos pat y).map (fun n => n + (x.length + 1)) := by
  intro x
  induction x with
  | nil =>
    intro y
    rw [List.nil_append, occPos_cons]
    have hp : pat.isPrefixOf ('\n' :: y) = false := by
      have h := isPrefixOf_append_newline pat hne hnl [] y
      rw [List.nil_append] at h
      rw [h]
      exact not_isPrefixOf_nil pat hne
    rw [hp]
    simp [occPos]
  | cons c x' ih =>
    intro y
    rw [List.cons_append, occPos_cons, ih y, occPos_cons]
    rw [← List.cons_append, isPrefixOf_append_newline pat hne hnl (c :: x') y]
    rw [List.map_append, List.map_map]
    have hfun : ((fun n => n + 1) ∘ fun n => n + (x'.length + 1)) =
        fun n => n + ((c :: x').length + 1) := by
      funext n
      simp [Function.comp, List.length_cons]
      omega
    rw [hfun, List.append_assoc]

/-- Occurrences of a newline-free pattern after a leading newline are the
occurrences of the tail, shifted by one. -/
theorem occPos_cons_newline (pat : List Char) (hne : pat ≠ []) (hnl : '\n' ∉ pat)
    (y : List Char) : occPos pat ('\n' :: y) = (occPos pat y).map (fun n => n + 1) := by
  have h := occPos_break pat hne hnl [] y
  rw [List.nil_append] at h
  rw [h]
  simp [occPos]

/-- Scanning across a block that mismatches the pattern at every offset just
shifts the occurrences of the remainder. -/
theorem occPos_shift_of_mismatch (pat : List Char) :
    ∀ x : List Char, (∀ i, i < x.length → hasMismatch pat (x.drop i) = true) →
    ∀ y, occPos pat (x ++ y) = (occPos pat y).map (fun n => n + x.length) := by
  intro x
  induction x with
  | nil =>
    intro _ y
    rw [List.nil_append]
    simp
  | cons c x' ih =>
    intro h y
    rw [List.cons_append, occPos_cons]
    have h0 : pat.isPrefixOf (c :: (x' ++ y)) = false := by
      have := not_prefixOf_append_of_hasMismatch pat (c :: x') (h 0 (by simp)) y
      rw [List.cons_append] at this
      exact this
    rw [h0]
    rw [ih (fun i hi => h (i + 1) (by simp only [List.length_cons]; omega)) y, List.map_map]
    have hfun : ((fun n => n + 1) ∘ fun n => n + x'.length) =
        fun n => n + (c :: x').length := by
      funext n
      simp [Function.comp, List.length_cons]
      omega
    rw [hfun]
    simp

/-- Appending a short tail that cannot host the pattern's last character
preserves the absence of occurrences. -/
theorem occPos_append_tail (pat Q : List Char) (hne : pat ≠ [])
    (hQlen : Q.length < pat.length) (hlast : ∀ c, pat.getLast? = some c → c ∉ Q) :
    ∀ u : List Char, occPos pat u = [] → occPos pat (u ++ Q) = [] := by
  intro u
  induction u with
  | nil =>
    intro _
    rw [List.nil_append]
    exact occPos_short pat Q hQlen
  | cons c u' ih =>
    intro hu
    rw [occPos_cons] at hu
    have h2 : occPos pat u' = [] :=
      List.map_eq_nil_iff.mp (List.append_eq_nil.mp hu).2
    have h1 : pat.isPrefixOf (c :: u') = false := by
      cases hp : pat.isPrefixOf (c :: u') with
      | false => rfl
      | true =>
        have := (List.append_eq_nil.mp hu).1
        rw [hp] at this
        simp at this
    rw [List.cons_append, occPos_cons]
    have h3 : pat.isPrefixOf (c :: (u' ++ Q)) = false := by
      cases hp : pat.isPrefixOf (c :: (u' ++ Q)) with
      | false => rfl
      | true =>
        exfalso
        have hpre : pat <+: (c :: u') ++ Q := by
          rw [List.cons_append]
          exact List.isPrefixOf_iff_prefix.mp hp
        rcases prefix_of_append_cases hpre with hx | ⟨w, hw, hwQ⟩
        · have hcontra := List.isPrefixOf_iff_prefix.mpr hx
          rw [h1] at hcontra
          exact Bool.noConfusion hcontra
        · cases w with
          | nil =>
            rw [List.append_nil] at hw
            subst hw
            have hcontra := List.isPrefixOf_iff_prefix.mpr (List.prefix_refl (c :: u'))
            rw [h1] at hcontra
            exact Bool.noConfusion hcontra
          | cons b w' =>
            have hd : (b :: w').getLast? = some ((b :: w').getLast (by simp)) :=
              List.getLast?_eq_getLast _ (by simp)
            have hglast : pat.getLast? = some ((b :: w').getLast (by simp)) := by
              rw [hw, List.getLast?_append, hd]
              rfl
            have hmem : (b :: w').getLast (by simp) ∈ Q :=
              hwQ.sublist.subset (List.getLast_mem (by simp))
            exact hlast _ hglast hmem
    rw [h3, ih h2]
    simp

/-- The `--- SOURCE:` marker occurs exactly once, namely at offset 0, in a
header block whose label hosts no occurrence of the marker. -/
theorem occPos_hdr_src (L : List Char) (hL : occPos "--- SOURCE:".data L = []) :
    occPos "--- SOURCE:".data ("--- SOURCE: ".data ++ (L ++ " ---".data)) = [0] := by
  have htail : occPos "--- SOURCE:".data (L ++ " ---".data) = [] :=
    occPos_append_tail "--- SOURCE:".data " ---".data (by decide) (by decide)
      (by
        intro c hc
        have hg : "--- SOURCE:".data.getLast? = some ':' := by decide
        rw [hg] at hc
        injection hc with h
        subst h
        decide)
      L hL
  have hshape : "--- SOURCE: ".data ++ (L ++ " ---".data) =
      '-' :: ("-- SOURCE: ".data ++ (L ++ " ---".data)) := rfl
  rw [hshape, occPos_cons]
  have hpre : "--- SOURCE:".data.isPrefixOf ('-' :: ("-- SOURCE: ".data ++ (L ++ " ---".data))) =
      true := by
    apply List.isPrefixOf_iff_prefix.mpr
    have h1 : "--- SOURCE:".data <+: "--- SOURCE: ".data :=
      List.isPrefixOf_iff_prefix.mp (by decide)
    have h2 := h1.trans (List.prefix_append "--- SOURCE: ".data (L ++ " ---".data))
    rw [hshape] at h2
    exact h2
  rw [hpre,
    occPos_shift_of_mismatch "--- SOURCE:".data "-- SOURCE: ".data (by decide) (L ++ " ---".data),
    htail]
  rfl

/-- A pattern that mismatches the `--- SOURCE: ` prelude at every offset,
cannot fit in ` ---`, cannot end inside ` ---`, and does not occur in the
label, does not occur in the header block at all. -/
theorem occPos_hdr_none (pat : List Char) (hne : pat ≠ [])
    (hmm2 : ∀ i, i < "--- SOURCE: ".data.length →
      hasMismatch pat ("--- SOURCE: ".data.drop i) = true)
    (hQlen : " ---".data.length < pat.length)
    (hlast : ∀ c, pat.getLast? = some c → c ∉ " ---".data)
    (L : List Char) (hL : occPos pat L = []) :
    occPos pat ("--- SOURCE: ".data ++ (L ++ " ---".data)) = [] := by
  rw [occPos_shift_of_mismatch pat "--- SOURCE: ".data hmm2 (L ++ " ---".data),
    occPos_append_tail pat " ---".data hne hQlen hlast L hL]
  rfl

/-- Character-level decomposition of one part built by
`concat_for_analysis`: a leading newline, the header block, a newline, and
the document content. -/
theorem partStr_data (d : Document) :
    (partStr d).data =
      '\n' :: (("--- SOURCE: ".data ++ ((sourceLabel d).data ++ " ---".data)) ++
        '\n' :: d.page_content.data) := by
  show ("\n--- SOURCE: " ++ sourceLabel d ++ " ---\n" ++ d.page_content).data = _
  rw [String.data_append, String.data_append, String.data_append]
  have h1 : "\n--- SOURCE: ".data = '\n' :: "--- SOURCE: ".data := rfl
  have h2 : " ---\n".data = " ---".data ++ ['\n'] := rfl
  rw [h1, h2]
  simp [List.append_assoc, List.cons_append]

/-- The `--- SOURCE:` marker occurs exactly once, at offset 1, in a part
whose content and label host no occurrence of the marker. -/
theorem occPos_part_src (d : Document)
    (hc : occPos "--- SOURCE:".data d.page_content.data = [])
    (hl : occPos "--- SOURCE:".data (sourceLabel d).data = []) :
    occPos "--- SOURCE:".data (partStr d).data = [1] := by
  rw [partStr_data d, occPos_cons_newline _ (by decide) (by decide),
    occPos_break _ (by decide) (by decide), occPos_hdr_src _ hl, hc]
  rfl

/-- A pattern satisfying the header side conditions and absent from the
content and label of a document does not occur in its part at all. -/
theorem occPos_part_none (pat : List Char) (hne : pat ≠ []) (hnl : '\n' ∉ pat)
    (hmm2 : ∀ i, i < "--- SOURCE: ".data.length →
      hasMismatch pat ("--- SOURCE: ".data.drop i) = true)
    (hQlen : " ---".data.length < pat.length)
    (hlast : ∀ c, pat.getLast? = some c → c ∉ " ---".data)
    (d : Document)
    (hc : occPos pat d.page_content.data = [])
    (hl : occPos pat (sourceLabel d).data = []) :
    occPos pat (partStr d).data = [] := by
  rw [partStr_data d, occPos_cons_newline pat hne hnl, occPos_break pat hne hnl,
    occPos_hdr_none pat hne hmm2 hQlen hlast _ hl, hc]
  rfl

/-- Character-level form of `String.intercalate.go`. -/
theorem intercalate_go_data (s : String) :
    ∀ (as : List String) (acc : String),
      (String.intercalate.go acc s as).data =
        acc.data ++ (as.map (fun a => s.data ++ a.data)).flatten := by
  intro as
  induction as with
  | nil =>
    intro acc
    simp [String.intercalate.go]
  | cons b bs ih =>
    intro acc
    simp only [String.intercalate.go]
    rw [ih (acc ++ s ++ b), String.data_append, String.data_append]
    simp [List.append_assoc]

/-- The string built by `concat_for_analysis` has exactly the characters of
`analysisData`. -/
theorem concat_for_analysis_data (docs : List Document) :
    (concat_for_analysis docs).data = analysisData docs := by
  cases docs with
  | nil => rfl
  | cons d ds =>
    show (String.intercalate.go (partStr d) "\n" (ds.map partStr)).data = _
    rw [intercalate_go_data, List.map_map]
    rfl

/-- Unfolding of `analysisData` on two or more documents. -/
theorem analysisData_cons_cons (d e : Document) (ds : List Document) :
    analysisData (d :: e :: ds) = (partStr d).data ++ '\n' :: analysisData (e :: ds) := rfl

/-- Unfolding of `analysisData` on one document. -/
theorem analysisData_one (d : Document) : analysisData [d] = (partStr d).data := by
  show (partStr d).data ++ ([] : List (List Char)).flatten = (partStr d).data
  simp

/-- With benign contents and labels, the occurrences of the `--- SOURCE:`
marker in the aggregated text are exactly the predicted per-part marker
positions. -/
theorem occPos_analysisData_src : ∀ docs : List Document,
    (∀ d ∈ docs, occPos "--- SOURCE:".data d.page_content.data = [] ∧
      occPos "--- SOURCE:".data (sourceLabel d).data = []) →
    occPos "--- SOURCE:".data (analysisData docs) = markerPositions docs := by
  intro docs
  induction docs with
  | nil => intro _; rfl
  | cons d ds ih =>
    intro hb
    have hd := hb d (List.mem_cons_self d ds)
    cases ds with
    | nil =>
      rw [analysisData_one, occPos_part_src d hd.1 hd.2]
      rfl
    | cons e ds' =>
      have hrest : ∀ x ∈ e :: ds',
          occPos "--- SOURCE:".data x.page_content.data = [] ∧
          occPos "--- SOURCE:".data (sourceLabel x).data = [] :=
        fun x hx => hb x (List.mem_cons_of_mem d hx)
      rw [analysisData_cons_cons, occPos_break _ (by decide) (by decide),
        occPos_part_src d hd.1 hd.2, ih hrest]
      rfl

/-- A pattern satisfying the header side conditions and absent from every
content and label does not occur in the aggregated text at all. -/
theorem occPos_analysisData_none (pat : List Char) (hne : pat ≠ []) (hnl : '\n' ∉ pat)
    (hmm2 : ∀ i, i < "--- SOURCE: ".data.length →
      hasMismatch pat ("--- SOURCE: ".data.drop i) = true)
    (hQlen : " ---".data.length < pat.length)
    (hlast : ∀ c, pat.getLast? = some c → c ∉ " ---".data) :
    ∀ docs : List Document,
    (∀ d ∈ docs, occPos pat d.page_content.data = [] ∧ occPos pat (sourceLabel d).data = []) →
    occPos pat (analysisData docs) = [] := by
  intro docs
  induction docs with
  | nil => intro _; rfl
  | cons d ds ih =>
    intro hb
    have hd := hb d (List.mem_cons_self d ds)
    cases ds with
    | nil =>
      rw [analysisData_one]
      exact occPos_part_none pat hne hnl hmm2 hQlen hlast d hd.1 hd.2
    | cons e ds' =>
      have hrest : ∀ x ∈ e :: ds',
          occPos pat x.page_content.data = [] ∧ occPos pat (sourceLabel x).data = [] :=
        fun x hx => hb x (List.mem_cons_of_mem d hx)
      rw [analysisData_cons_cons, occPos_break pat hne hnl,
        occPos_part_none pat hne hnl hmm2 hQlen hlast d hd.1 hd.2, ih hrest]
      rfl

/-- One predicted marker position per document. -/
theorem markerPositions_length : ∀ docs : List Document,
    (markerPositions docs).length = docs.length := by
  intro docs
  induction docs with
  | nil => rfl
  | cons d ds ih =>
    cases ds with
    | nil => rfl
    | cons e ds' =>
      show (1 :: (markerPositions (e :: ds')).map _).length = _
      simp only [List.length_cons, List.length_map]
      rw [show (markerPositions (e :: ds')).length = (e :: ds').length from ih]
      simp

/-- The occurrence positions produced by the scanner are strictly
increasing. -/
theorem occPos_sorted_lt (pat : List Char) : ∀ s : List Char,
    (occPos pat s).Pairwise (· < ·) := by
  intro s
  induction s with
  | nil => exact List.Pairwise.nil
  | cons c t ih =>
    rw [occPos_cons]
    apply List.pairwise_append.mpr
    refine ⟨?_, List.pairwise_map.mpr (List.Pairwise.imp (fun h => by omega) ih), ?_⟩
    · cases pat.isPrefixOf (c :: t) <;> simp
    · intro a ha b hb
      rcases List.mem_map.mp hb with ⟨n, _, rfl⟩
      have ha0 : a = 0 := by
        cases hp : pat.isPrefixOf (c :: t) with
        | true =>
          rw [hp] at ha
          simp at ha
          exact ha
        | false =>
          rw [hp] at ha
          simp at ha
      omega

/-- Character-level form of the header text of a document. -/
theorem header_data (d : Document) :
    ("--- SOURCE: " ++ sourceLabel d ++ " ---").data =
      "--- SOURCE: ".data ++ ((sourceLabel d).data ++ " ---".data) := by
  rw [String.data_append, String.data_append, List.append_assoc]

/-- A list is a prefix of itself extended by anything. -/
theorem isPrefixOf_append_self (x y : List Char) : x.isPrefixOf (x ++ y) = true :=
  List.isPrefixOf_iff_prefix.mpr (List.prefix_append x y)

/-- Unfolding of `markerPositions` on two or more documents. -/
theorem markerPositions_cons_cons (d e : Document) (ds : List Document) :
    markerPositions (d :: e :: ds) =
      1 :: (markerPositions (e :: ds)).map (fun n => n + ((partStr d).data.length + 1)) := rfl

/-- At the k-th predicted marker position, the aggregated text continues
with the full header of the k-th input document: the markers are attributed
to the input documents in input order. -/
theorem analysisData_attrib : ∀ docs : List Document, ∀ k, k < docs.length →
    (("--- SOURCE: " ++ sourceLabel (docs.getD k ⟨"", []⟩) ++ " ---").data).isPrefixOf
      ((analysisData docs).drop ((markerPositions docs).getD k 0)) = true := by
  intro docs
  induction docs with
  | nil =>
    intro k hk
    simp at hk
  | cons d ds ih =>
    intro k hk
    cases ds with
    | nil =>
      cases k with
      | succ k' => simp at hk
      | zero =>
        apply List.isPrefixOf_iff_prefix.mpr
        rw [header_data, analysisData_one, partStr_data]
        exact List.prefix_append _ _
    | cons e ds' =>
      cases k with
      | zero =>
        apply List.isPrefixOf_iff_prefix.mpr
        rw [header_data, analysisData_cons_cons, partStr_data]
        exact (List.prefix_append _ _).trans (List.prefix_append _ _)
      | succ k' =>
        have hk' : k' < (e :: ds').length := by
          simp only [List.length_cons] at hk ⊢
          omega
        have hklen : k' < (markerPositions (e :: ds')).length := by
          rw [markerPositions_length]
          exact hk'
        have hpos : (markerPositions (d :: e :: ds')).getD (k' + 1) 0 =
            (markerPositions (e :: ds')).getD k' 0 + ((partStr d).data.length + 1) := by
          show ((markerPositions (e :: ds')).map
            (fun n => n + ((partStr d).data.length + 1))).getD k' 0 = _
          rw [List.getD_eq_getElem?_getD, List.getElem?_map, List.getElem?_eq_getElem hklen,
            List.getD_eq_getElem _ _ hklen]
          rfl
        rw [analysisData_cons_cons, hpos]
        have hshape : (partStr d).data ++ '\n' :: analysisData (e :: ds') =
            ((partStr d).data ++ ['\n']) ++ analysisData (e :: ds') := by
          rw [List.append_assoc]
          rfl
        rw [hshape]
        rw [show (markerPositions (e :: ds')).getD k' 0 + ((partStr d).data.length + 1) =
          ((partStr d).data ++ ['\n']).length + (markerPositions (e :: ds')).getD k' 0 from by
            simp only [List.length_append, List.length_cons, List.length_nil]
            omega]
        rw [List.drop_append]
        exact ih k' hk'

/-- C3 counterexample: on a single document whose content itself contains
the marker text, the output of `concat_for_analysis` contains two
occurrences of `--- SOURCE:`, not one occurrence per document. -/
theorem concat_for_analysis_marker_count_cex :
    countStr "--- SOURCE:" (concat_for_analysis [⟨"--- SOURCE: x ---", []⟩]) = 2 ∧
    ([Document.mk "--- SOURCE: x ---" []] : List Document).length = 1 := by
  constructor
  · decide
  · rfl

/-- C3 (amended): `concat_for_analysis` on the empty list returns the empty
string; and on any list of documents whose contents and source labels
contain no occurrence of the `--- SOURCE:` marker text, the output contains
exactly one occurrence of the marker per document, at strictly increasing
positions, and the text at the k-th occurrence continues with the header of
the k-th input document, so the markers appear in input order. -/
theorem concat_for_analysis_marker_count :
    concat_for_analysis [] = "" ∧
    ∀ docs : List Document,
      (∀ d ∈ docs, countStr "--- SOURCE:" d.page_content = 0 ∧
        countStr "--- SOURCE:" (sourceLabel d) = 0) →
      countStr "--- SOURCE:" (concat_for_analysis docs) = docs.length ∧
      List.Pairwise (· < ·) (occPos "--- SOURCE:".data (concat_for_analysis docs).data) ∧
      ∀ k, k < docs.length →
        (("--- SOURCE: " ++ sourceLabel (docs.getD k ⟨"", []⟩) ++ " ---").data).isPrefixOf
          ((concat_for_analysis docs).data.drop
            ((occPos "--- SOURCE:".data (concat_for_analysis docs).data).getD k 0)) = true := by
  refine ⟨rfl, ?_⟩
  intro docs hb
  have hb' : ∀ d ∈ docs, occPos "--- SOURCE:".data d.page_content.data = [] ∧
      occPos "--- SOURCE:".data (sourceLabel d).data = [] := by
    intro d hd
    obtain ⟨h1, h2⟩ := hb d hd
    exact ⟨List.length_eq_zero.mp h1, List.length_eq_zero.mp h2⟩
  have hocc : occPos "--- SOURCE:".data (concat_for_analysis docs).data =
      markerPositions docs := by
    rw [concat_for_analysis_data]
    exact occPos_analysisData_src docs hb'
  refine ⟨?_, ?_, ?_⟩
  · show (occPos "--- SOURCE:".data (concat_for_analysis docs).data).length = docs.length
    rw [hocc, markerPositions_length]
  · exact occPos_sorted_lt _ _
  · intro k hk
    rw [hocc, concat_for_analysis_data]
    exact analysisData_attrib docs k hk

/-- Closed instance of the amended C3 at a concrete benign two-document
list. -/
theorem concat_for_analysis_marker_count_witness :
    (∀ d ∈ ([⟨"hello", [("source", "a.txt")]⟩, ⟨"world", []⟩] : List Document),
      countStr "--- SOURCE:" d.page_content = 0 ∧
      countStr "--- SOURCE:" (sourceLabel d) = 0) ∧
    countStr "--- SOURCE:"
      (concat_for_analysis [⟨"hello", [("source", "a.txt")]⟩, ⟨"world", []⟩]) = 2 :=
  ⟨by decide,
   (concat_for_analysis_marker_count.2
     [⟨"hello", [("source", "a.txt")]⟩, ⟨"world", []⟩] (by decide)).1⟩

/-- Character-level decomposition of the comparison block: the reference
marker, a newline, the reference aggregation, a blank line, the actual
marker, a newline, and the actual aggregation. -/
theorem concat_for_comparison_data (ref_docs act_docs : List Document) :
    (concat_for_comparison ref_docs act_docs).data =
      "<<REFERENCE_DOCUMENTS>>".data ++ '\n' ::
        (analysisData ref_docs ++ '\n' :: ('\n' ::
          ("<<ACTUAL_DOCUMENTS>>".data ++ '\n' :: analysisData act_docs))) := by
  show ("<<REFERENCE_DOCUMENTS>>\n" ++ concat_for_analysis ref_docs ++
    "\n\n<<ACTUAL_DOCUMENTS>>\n" ++ concat_for_analysis act_docs).data = _
  rw [String.data_append, String.data_append, String.data_append,
    concat_for_analysis_data, concat_for_analysis_data]
  have h1 : "<<REFERENCE_DOCUMENTS>>\n".data = "<<REFERENCE_DOCUMENTS>>".data ++ ['\n'] := rfl
  have h2 : "\n\n<<ACTUAL_DOCUMENTS>>\n".data =
      '\n' :: ('\n' :: ("<<ACTUAL_DOCUMENTS>>".data ++ ['\n'])) := rfl
  rw [h1, h2]
  simp [List.append_assoc]

/-- The reference marker never occurs in an aggregation of documents whose
contents and labels do not contain it. -/
theorem refMarker_analysis_none (docs : List Document)
    (hb : ∀ d ∈ docs, occPos "<<REFERENCE_DOCUMENTS>>".data d.page_content.data = [] ∧
      occPos "<<REFERENCE_DOCUMENTS>>".data (sourceLabel d).data = []) :
    occPos "<<REFERENCE_DOCUMENTS>>".data (analysisData docs) = [] :=
  occPos_analysisData_none "<<REFERENCE_DOCUMENTS>>".data (by decide) (by decide) (by decide)
    (by decide)
    (by
      intro c hc
      have hg : "<<REFERENCE_DOCUMENTS>>".data.getLast? = some '>' := by decide
      rw [hg] at hc
      injection hc with h
      subst h
      decide)
    docs hb

/-- The actual marker never occurs in an aggregation of documents whose
contents and labels do not contain it. -/
theorem actMarker_analysis_none (docs : List Document)
    (hb : ∀ d ∈ docs, occPos "<<ACTUAL_DOCUMENTS>>".data d.page_content.data = [] ∧
      occPos "<<ACTUAL_DOCUMENTS>>".data (sourceLabel d).data = []) :
    occPos "<<ACTUAL_DOCUMENTS>>".data (analysisData docs) = [] :=
  occPos_analysisData_none "<<ACTUAL_DOCUMENTS>>".data (by decide) (by decide) (by decide)
    (by decide)
    (by
      intro c hc
      have hg : "<<ACTUAL_DOCUMENTS>>".data.getLast? = some '>' := by decide
      rw [hg] at hc
      injection hc with h
      subst h
      decide)
    docs hb

/-- C4 counterexample: when a reference document's content itself contains
the reference marker text, the output of `concat_for_comparison` contains
two occurrences of `<<REFERENCE_DOCUMENTS>>`, not exactly one. -/
theorem concat_for_comparison_marker_cex :
    countStr "<<REFERENCE_DOCUMENTS>>"
      (concat_for_comparison [⟨"<<REFERENCE_DOCUMENTS>>", []⟩] []) = 2 := by
  decide

/-- C4 (amended): for document lists whose contents and source labels
contain neither marker text, the comparison output contains the marker
`<<REFERENCE_DOCUMENTS>>` exactly once and the marker
`<<ACTUAL_DOCUMENTS>>` exactly once, the reference occurrence strictly
before the actual occurrence, and the output is built from the two
single-set concatenations. -/
theorem concat_for_comparison_markers :
    ∀ ref_docs act_docs : List Document,
    (∀ d ∈ ref_docs ++ act_docs,
      countStr "<<REFERENCE_DOCUMENTS>>" d.page_content = 0 ∧
      countStr "<<REFERENCE_DOCUMENTS>>" (sourceLabel d) = 0 ∧
      countStr "<<ACTUAL_DOCUMENTS>>" d.page_content = 0 ∧
      countStr "<<ACTUAL_DOCUMENTS>>" (sourceLabel d) = 0) →
    countStr "<<REFERENCE_DOCUMENTS>>" (concat_for_comparison ref_docs act_docs) = 1 ∧
    countStr "<<ACTUAL_DOCUMENTS>>" (concat_for_comparison ref_docs act_docs) = 1 ∧
    (∃ p1 p2,
      occPos "<<REFERENCE_DOCUMENTS>>".data (concat_for_comparison ref_docs act_docs).data =
        [p1] ∧
      occPos "<<ACTUAL_DOCUMENTS>>".data (concat_for_comparison ref_docs act_docs).data =
        [p2] ∧
      p1 < p2) ∧
    concat_for_comparison ref_docs act_docs =
      "<<REFERENCE_DOCUMENTS>>\n" ++ concat_for_analysis ref_docs ++
        "\n\n<<ACTUAL_DOCUMENTS>>\n" ++ concat_for_analysis act_docs := by
  intro ref_docs act_docs hb
  have h1r : ∀ d ∈ ref_docs, occPos "<<REFERENCE_DOCUMENTS>>".data d.page_content.data = [] ∧
      occPos "<<REFERENCE_DOCUMENTS>>".data (sourceLabel d).data = [] := by
    intro d hd
    obtain ⟨a, b, _, _⟩ := hb d (List.mem_append.mpr (Or.inl hd))
    exact ⟨List.length_eq_zero.mp a, List.length_eq_zero.mp b⟩
  have h1a : ∀ d ∈ act_docs, occPos "<<REFERENCE_DOCUMENTS>>".data d.page_content.data = [] ∧
      occPos "<<REFERENCE_DOCUMENTS>>".data (sourceLabel d).data = [] := by
    intro d hd
    obtain ⟨a, b, _, _⟩ := hb d (List.mem_append.mpr (Or.inr hd))
    exact ⟨List.length_eq_zero.mp a, List.length_eq_zero.mp b⟩
  have h2r : ∀ d ∈ ref_docs, occPos "<<ACTUAL_DOCUMENTS>>".data d.page_content.data = [] ∧
      occPos "<<ACTUAL_DOCUMENTS>>".data (sourceLabel d).data = [] := by
    intro d hd
    obtain ⟨_, _, a, b⟩ := hb d (List.mem_append.mpr (Or.inl hd))
    exact ⟨List.length_eq_zero.mp a, List.length_eq_zero.mp b⟩
  have h2a : ∀ d ∈ act_docs, occPos "<<ACTUAL_DOCUMENTS>>".data d.page_content.data = [] ∧
      occPos "<<ACTUAL_DOCUMENTS>>".data (sourceLabel d).data = [] := by
    intro d hd
    obtain ⟨_, _, a, b⟩ := hb d (List.mem_append.mpr (Or.inr hd))
    exact ⟨List.length_eq_zero.mp a, List.length_eq_zero.mp b⟩
  have hM1 : occPos "<<REFERENCE_DOCUMENTS>>".data
      (concat_for_comparison ref_docs act_docs).data = [0] := by
    rw [concat_for_comparison_data,
      occPos_break "<<REFERENCE_DOCUMENTS>>".data (by decide) (by decide),
      occPos_break "<<REFERENCE_DOCUMENTS>>".data (by decide) (by decide),
      occPos_cons_newline "<<REFERENCE_DOCUMENTS>>".data (by decide) (by decide),
      occPos_break "<<REFERENCE_DOCUMENTS>>".data (by decide) (by decide),
      refMarker_analysis_none ref_docs h1r, refMarker_analysis_none act_docs h1a,
      show occPos "<<REFERENCE_DOCUMENTS>>".data "<<REFERENCE_DOCUMENTS>>".data = [0] from
        by decide,
      show occPos "<<REFERENCE_DOCUMENTS>>".data "<<ACTUAL_DOCUMENTS>>".data = [] from
        by decide]
    simp
  have hM2 : occPos "<<ACTUAL_DOCUMENTS>>".data
      (concat_for_comparison ref_docs act_docs).data =
      [(analysisData ref_docs).length + 26] := by
    rw [concat_for_comparison_data,
      occPos_break "<<ACTUAL_DOCUMENTS>>".data (by decide) (by decide),
      occPos_break "<<ACTUAL_DOCUMENTS>>".data (by decide) (by decide),
      occPos_cons_newline "<<ACTUAL_DOCUMENTS>>".data (by decide) (by decide),
      occPos_break "<<ACTUAL_DOCUMENTS>>".data (by decide) (by decide),
      actMarker_analysis_none ref_docs h2r, actMarker_analysis_none act_docs h2a,
      show occPos "<<ACTUAL_DOCUMENTS>>".data "<<REFERENCE_DOCUMENTS>>".data = [] from
        by decide,
      show occPos "<<ACTUAL_DOCUMENTS>>".data "<<ACTUAL_DOCUMENTS>>".data = [0] from
        by decide,
      show "<<REFERENCE_DOCUMENTS>>".data.length = 23 from by decide]
    simp
    omega
  refine ⟨?_, ?_, ⟨0, (analysisData ref_docs).length + 26, hM1, hM2, by omega⟩, rfl⟩
  · show (occPos "<<REFERENCE_DOCUMENTS>>".data
      (concat_for_comparison ref_docs act_docs).data).length = 1
    rw [hM1]
    rfl
  · show (occPos "<<ACTUAL_DOCUMENTS>>".data
      (concat_for_comparison ref_docs act_docs).data).length = 1
    rw [hM2]
    rfl

/-- Closed instance of the amended C4 at concrete benign lists. -/
theorem concat_for_comparison_markers_witness :
    (∀ d ∈ ([⟨"ref text", []⟩] ++ [⟨"act text", []⟩] : List Document),
      countStr "<<REFERENCE_DOCUMENTS>>" d.page_content = 0 ∧
      countStr "<<REFERENCE_DOCUMENTS>>" (sourceLabel d) = 0 ∧
      countStr "<<ACTUAL_DOCUMENTS>>" d.page_content = 0 ∧
      countStr "<<ACTUAL_DOCUMENTS>>" (sourceLabel d) = 0) ∧
    countStr "<<REFERENCE_DOCUMENTS>>"
      (concat_for_comparison [⟨"ref text", []⟩] [⟨"act text", []⟩]) = 1 ∧
    countStr "<<ACTUAL_DOCUMENTS>>"
      (concat_for_comparison [⟨"ref text", []⟩] [⟨"act text", []⟩]) = 1 :=
  ⟨by decide,
   (concat_for_comparison_markers [⟨"ref text", []⟩] [⟨"act text", []⟩] (by decide)).1,
   (concat_for_comparison_markers [⟨"ref text", []⟩] [⟨"act text", []⟩] (by decide)).2.1⟩

end DocPortal
